import Mathlib

/-!
Shallow embedding of the productivity/timesheet aggregation core of the
niletrackerweb repository: per-session productivity metrics
(SessionDetailsModal.calculateProductivityMetrics), weekly stats
(TimesheetManagement.stats / weekCalculations), analytics metrics and top
performers (AnalyticsReports.overallMetrics / topPerformers), week ranges
(lib/utils.getWeekDateRange) and the monthly calendar grid
(MonthlyTimesheet.calendarData).

Modelling conventions:
* JavaScript numbers are modelled exactly — `Nat` for the non-negative
  integer fields read from the store, `Int` for derived quantities that can
  go negative, `Rat` where the source divides before accumulating.
* `Math.round x` is modelled as `⌊x + 1/2⌋` (JavaScript rounds ties toward
  +∞).
* Timestamps are minutes since 1970-01-01T00:00 and the host timezone is
  taken to be UTC, so `toISOString` / local calendar accessors agree: the
  calendar day of an instant `t` is `t / 1440` and the day of week of day
  `d` is `(d + 4) % 7` (1970-01-01 was a Thursday; 0 = Sunday as in
  JavaScript `getDay`).
* Date-only values (the `YYYY-MM-DD` strings used as session bucketing
  keys) are modelled as calendar day numbers.
-/

/-- `Math.round (a / b)` for an integer numerator `a` and positive integer
denominator `b`: floor of `a/b + 1/2`, i.e. `(2a + b) / (2b)` rounded toward
-∞. -/
def jsRoundDiv (a : Int) (b : Int) : Int :=
  Int.fdiv (2 * a + b) (2 * b)

/-- `Math.round` on an exactly-represented rational. -/
def jsRoundQ (x : Rat) : Int :=
  Int.floor (x + 1/2)

/-- One time-session record, with the fields the aggregation code reads.
`date` is the session's date-only key (a canonical `YYYY-MM-DD` string in
the source, modelled as a calendar day number). Fields the aggregation
never touches (screenshots, comments, clock-in/out strings) are omitted. -/
structure Session where
  userId : String
  date : Nat
  totalMinutes : Nat
  idleMinutes : Nat
  status : String
  approvalStatus : String
deriving Repr, DecidableEq

/-- The `performanceRating` string constants of
`calculateProductivityMetrics` ("Excellent" / "Good" / "Average" /
"Below Average" / "Poor"). -/
inductive Rating where
  | excellent
  | good
  | average
  | belowAverage
  | poor
deriving Repr, DecidableEq

/-- Output of `calculateProductivityMetrics` (SessionDetailsModal). -/
structure SessionMetrics where
  activeMinutes : Int
  sessionProductivity : Int
  dailyTargetAchievement : Int
  efficiencyScore : Int
  performanceRating : Rating
deriving Repr, DecidableEq

/-- `expectedDailyMinutes = 8 * 60` from `calculateProductivityMetrics`. -/
def expectedDailyMinutes : Nat := 8 * 60

/-- `calculateProductivityMetrics` from SessionDetailsModal.tsx: active
minutes, the three percentage scores and the first-match rating cascade.
The display-only `performanceColor` is omitted. -/
def calculateProductivityMetrics (s : Session) : SessionMetrics :=
  let activeMinutes : Int := (s.totalMinutes : Int) - (s.idleMinutes : Int)
  let sessionProductivity : Int :=
    if s.totalMinutes > 0 then jsRoundDiv (activeMinutes * 100) (s.totalMinutes : Int) else 0
  let dailyTargetAchievement : Int :=
    jsRoundDiv ((s.totalMinutes : Int) * 100) (expectedDailyMinutes : Int)
  let efficiencyScore : Int :=
    jsRoundDiv (activeMinutes * 100) (expectedDailyMinutes : Int)
  let performanceRating : Rating :=
    if sessionProductivity ≥ 90 ∧ dailyTargetAchievement ≥ 80 then .excellent
    else if sessionProductivity ≥ 80 ∧ dailyTargetAchievement ≥ 70 then .good
    else if sessionProductivity ≥ 70 ∧ dailyTargetAchievement ≥ 60 then .average
    else if sessionProductivity ≥ 60 ∨ dailyTargetAchievement ≥ 50 then .belowAverage
    else .poor
  { activeMinutes := activeMinutes
    sessionProductivity := sessionProductivity
    dailyTargetAchievement := dailyTargetAchievement
    efficiencyScore := efficiencyScore
    performanceRating := performanceRating }

/-- Output of the memoized `stats` of TimesheetManagement.tsx. -/
structure WeeklyStats where
  pending : Nat
  approved : Nat
  disapproved : Nat
  totalMinutes : Nat
  idleMinutes : Nat
  activeMinutes : Int
  productivityRate : Int
deriving Repr, DecidableEq

/-- The memoized `stats` of TimesheetManagement.tsx: status buckets are
counted by matching `status` OR `approvalStatus`, totals are plain sums and
the productivity rate is computed from the aggregate totals. -/
def stats (sessions : List Session) : WeeklyStats :=
  let pending := (sessions.filter
    (fun s => s.status == "submitted" || s.approvalStatus == "submitted")).length
  let approved := (sessions.filter
    (fun s => s.status == "approved" || s.approvalStatus == "approved")).length
  let disapproved := (sessions.filter
    (fun s => s.status == "disapproved" || s.approvalStatus == "disapproved")).length
  let totalMinutes : Nat := (sessions.map (·.totalMinutes)).sum
  let idleMinutes : Nat := (sessions.map (·.idleMinutes)).sum
  let activeMinutes : Int := (totalMinutes : Int) - (idleMinutes : Int)
  let productivityRate : Int :=
    if totalMinutes > 0 then jsRoundDiv (activeMinutes * 100) (totalMinutes : Int) else 0
  { pending := pending
    approved := approved
    disapproved := disapproved
    totalMinutes := totalMinutes
    idleMinutes := idleMinutes
    activeMinutes := activeMinutes
    productivityRate := productivityRate }

/-- The session-count fields of `overallMetrics` of AnalyticsReports.tsx.
The hour/averaging fields of that memo are display-only divisions of the
same sums and are not needed by any claim. -/
structure OverallCounts where
  totalSessions : Nat
  approvedSessions : Nat
  pendingSessions : Nat
  rejectedSessions : Nat
deriving Repr, DecidableEq

/-- The status tallies of `overallMetrics` (AnalyticsReports.tsx): exact
string match on the `status` field alone. -/
def overallMetricsCounts (sessions : List Session) : OverallCounts :=
  { totalSessions := sessions.length
    approvedSessions := (sessions.filter (fun s => s.status == "approved")).length
    pendingSessions := (sessions.filter (fun s => s.status == "submitted")).length
    rejectedSessions := (sessions.filter (fun s => s.status == "disapproved")).length }

/-- Average of per-session productivity rates, following the spec's words
for the method `summarize` explicitly does NOT use ("NOT the average of
per-session rates"); defined only to compare against `stats`. -/
def specAverageOfSessionRates (sessions : List Session) : Int :=
  if sessions.length > 0 then
    jsRoundDiv ((sessions.map (fun s =>
      if s.totalMinutes > 0 then
        jsRoundDiv (((s.totalMinutes : Int) - s.idleMinutes) * 100) (s.totalMinutes : Int)
      else 0)).sum) (sessions.length : Int)
  else 0

/-- The C1 scenario session `{totalMinutes: 450, idleMinutes: 50}`. -/
def scenarioSession : Session :=
  { userId := "u", date := 0, totalMinutes := 450, idleMinutes := 50
    status := "submitted", approvalStatus := "submitted" }

/-- The three sessions of the C3 scenario: totalMinutes [480, 0, 300],
idleMinutes [60, 0, 300]. -/
def scenarioWeek : List Session :=
  [ { userId := "u", date := 0, totalMinutes := 480, idleMinutes := 60
      status := "submitted", approvalStatus := "submitted" },
    { userId := "u", date := 1, totalMinutes := 0, idleMinutes := 0
      status := "submitted", approvalStatus := "submitted" },
    { userId := "u", date := 2, totalMinutes := 300, idleMinutes := 300
      status := "submitted", approvalStatus := "submitted" } ]

/-! ## Calendar model (JavaScript `Date` semantics, UTC host timezone)

Instants are minutes since 1970-01-01T00:00; a calendar day is a day count
since 1970-01-01. The functions below model the proleptic Gregorian
arithmetic that `Date` performs internally. -/

/-- Gregorian leap-year test. -/
def isLeap (y : Nat) : Bool := (y % 4 == 0 && y % 100 != 0) || y % 400 == 0

/-- Days in year `y`. -/
def daysInYear (y : Nat) : Nat := if isLeap y then 366 else 365

/-- Days in month `m` (0-based, 0 = January as in JavaScript) of year `y`;
the source obtains this as `new Date(year, month + 1, 0).getDate()`. -/
def daysInMonth (y : Nat) : Nat → Nat
  | 0 => 31 | 1 => if isLeap y then 29 else 28 | 2 => 31 | 3 => 30 | 4 => 31
  | 5 => 30 | 6 => 31 | 7 => 31 | 8 => 30 | 9 => 31 | 10 => 30 | _ => 31

/-- Days from 1970-01-01 up to the start of year `1970 + n`. -/
def daysBeforeYearAux : Nat → Nat
  | 0 => 0
  | n+1 => daysBeforeYearAux n + daysInYear (1970 + n)

/-- Days from 1970-01-01 up to the start of year `y` (for `y ≥ 1970`). -/
def daysBeforeYear (y : Nat) : Nat := daysBeforeYearAux (y - 1970)

/-- Days from the start of year `y` up to the start of month `m`. -/
def daysBeforeMonth (y m : Nat) : Nat := ((List.range m).map (daysInMonth y)).sum

/-- Day number of the civil date `(y, m, d)` (month 0-based, day 1-based). -/
def toDayNumber (y m d : Nat) : Nat := daysBeforeYear y + daysBeforeMonth y m + (d - 1)

/-- Calendar day of an instant. -/
def dayOf (t : Nat) : Nat := t / 1440

/-- JavaScript `getDay` of a calendar day: 0 = Sunday; 1970-01-01 was a
Thursday. -/
def dayOfWeek (d : Nat) : Nat := (d + 4) % 7

/-- Year and day-of-year of a day number: peel off year lengths starting
from 1970 (fuel-based so it reduces in the kernel; fuel `n + 1` always
suffices since a year has at least 365 days). -/
def yearOfAux : Nat → Nat → Nat → Nat × Nat
  | 0, y, r => (y, r)
  | fuel+1, y, r => if r < daysInYear y then (y, r) else yearOfAux fuel (y + 1) (r - daysInYear y)

/-- Year and day-of-year of a day number. -/
def yearOf (n : Nat) : Nat × Nat := yearOfAux (n + 1) 1970 n

/-- Month (0-based) containing day-of-year `r` of year `y`: the number of
months of `y` that end on or before `r`. -/
def monthOf (y r : Nat) : Nat :=
  ((List.range 12).filter (fun k => daysBeforeMonth y (k + 1) ≤ r)).length

/-- The month index (`getMonth`) of a day number. -/
def monthOfDay (n : Nat) : Nat := monthOf (yearOf n).1 (yearOf n).2

/-- The day-of-month (`getDate`, 1-based) of a day number. -/
def dayOfMonthOfDay (n : Nat) : Nat :=
  (yearOf n).2 - daysBeforeMonth (yearOf n).1 (monthOfDay n) + 1

/-- Sum of year lengths for `n` years starting at `y0`. -/
def sumYears (y0 : Nat) : Nat → Nat
  | 0 => 0
  | n+1 => daysInYear y0 + sumYears (y0 + 1) n

/-! ## Week ranges and week navigation -/

/-- `getWeekDateRange` from lib/utils.ts: move the anchor back to the
Sunday of its week with `setDate` (which keeps the time of day), add six
days, and return both ends as `YYYY-MM-DD` strings via
`toISOString().split("T")[0]` — i.e. as calendar day numbers. Faithful on
instants from 1970-01-04 (the first full week) onward. -/
def getWeekDateRange (t : Nat) : Nat × Nat :=
  let startOfWeek := t - dayOfWeek (dayOf t) * 1440
  let endOfWeek := startOfWeek + 6 * 1440
  (dayOf startOfWeek, dayOf endOfWeek)

/-- The week-start instant computed by `weekCalculations` in
TimesheetManagement.tsx: `setDate(getDate() - getDay())` moves the calendar
day back to Sunday but keeps the time of day. -/
def weekStartInstant (t : Nat) : Nat := t - dayOfWeek (dayOf t) * 1440

/-- `isCurrentWeek` from `weekCalculations`: `toDateString()` equality of
the two week-start instants, i.e. same calendar day. `clock` is the
`new Date()` the memo reads when it runs. -/
def isCurrentWeekCalc (anchor clock : Nat) : Bool :=
  dayOf (weekStartInstant clock) == dayOf (weekStartInstant anchor)

/-- `canNavigateNext` from `weekCalculations`: add seven days to the
anchor, move back to the Sunday of that week (time of day kept), and
compare the resulting instant against the week start of `clock` (the
`new Date()` read inside the memo) with `<=` on full timestamps. -/
def canNavigateNext (anchor clock : Nat) : Bool :=
  weekStartInstant (anchor + 7 * 1440) ≤ weekStartInstant clock

/-- `isToday` from WeeklyCalendarView.tsx: `toDateString()` equality of the
cell date against `new Date()` — same calendar day as the clock read at
execution time. -/
def isTodayWeekly (date clock : Nat) : Bool := dayOf date == dayOf clock

/-! ## Top performers (AnalyticsReports.tsx) -/

/-- A user-directory record as consumed by `topPerformers`; only `id` is
read by the computation (the rest of the record is display data carried
along unchanged). -/
structure UserRec where
  id : String
deriving Repr, DecidableEq

/-- One accumulated leaderboard entry of the `userStats` map. -/
structure PerformerStat where
  user : UserRec
  totalHours : Rat
  productivityRate : Int
  sessions : Nat
deriving Repr, DecidableEq

/-- JavaScript `Map.set`: overwrite in place when the key exists (keeping
its original insertion position), otherwise append. -/
def mapSet (m : List (String × PerformerStat)) (k : String) (v : PerformerStat) :
    List (String × PerformerStat) :=
  match m with
  | [] => [(k, v)]
  | (k', v') :: rest => if k' = k then (k, v) :: rest else (k', v') :: mapSet rest k v

/-- JavaScript `Map.get`. -/
def mapGet (m : List (String × PerformerStat)) (k : String) : Option PerformerStat :=
  (m.find? (fun p => p.1 == k)).map (·.2)

/-- One iteration of the `sessions.forEach` body of `topPerformers`:
sessions whose user is not in the directory are skipped; hours are
accumulated as exact rationals (`totalMinutes / 60`); the productivity rate
is recomputed from this user's active minutes over the hours accumulated so
far. -/
def topPerformersStep (allSessions : List Session) (users : List UserRec)
    (m : List (String × PerformerStat)) (session : Session) :
    List (String × PerformerStat) :=
  match users.find? (fun u => u.id == session.userId) with
  | none => m
  | some userData =>
    let existing := (mapGet m session.userId).getD
      { user := userData, totalHours := 0, productivityRate := 0, sessions := 0 }
    let totalHours : Rat := existing.totalHours + (session.totalMinutes : Rat) / 60
    let totalMinutes : Rat := totalHours * 60
    let totalActiveMinutes : Int :=
      ((allSessions.filter (fun s => s.userId == session.userId)).map
        (fun s => (s.totalMinutes : Int) - (s.idleMinutes : Int))).sum
    let productivityRate : Int :=
      if 0 < totalMinutes then jsRoundQ ((totalActiveMinutes : Rat) / totalMinutes * 100) else 0
    mapSet m session.userId
      { user := existing.user, totalHours := totalHours
        productivityRate := productivityRate, sessions := existing.sessions + 1 }

/-- `topPerformers` from AnalyticsReports.tsx: fold the sessions into the
insertion-ordered `userStats` map, sort its values with the comparator
`(a, b) => b.productivityRate - a.productivityRate` and keep the first 5.
ECMAScript `Array.prototype.sort` is stable and, for this consistent
comparator, produces exactly the stable descending-by-rate order, i.e.
`List.insertionSort` with `r a b := b.productivityRate ≤ a.productivityRate`. -/
def topPerformers (sessions : List Session) (users : List UserRec) : List PerformerStat :=
  let m := sessions.foldl (topPerformersStep sessions users) []
  ((m.map Prod.snd).insertionSort
    (fun a b => b.productivityRate ≤ a.productivityRate)).take 5

/-- Members of `mapSet m k v` are the new pair or members of `m`. -/
theorem mem_mapSet {m : List (String × PerformerStat)} {k : String} {v : PerformerStat}
    {kv : String × PerformerStat} (h : kv ∈ mapSet m k v) : kv = (k, v) ∨ kv ∈ m := by
  induction m with
  | nil => simpa [mapSet] using h
  | cons hd tl ih =>
    rw [mapSet] at h
    by_cases hk : hd.1 = k
    · simp only [hk, if_pos rfl] at h
      rcases List.mem_cons.mp h with h | h
      · exact Or.inl h
      · exact Or.inr (List.mem_cons_of_mem _ h)
    · simp only [if_neg hk] at h
      rcases List.mem_cons.mp h with h | h
      · exact Or.inr (h ▸ List.mem_cons_self _ _)
      · rcases ih h with h | h
        · exact Or.inl h
        · exact Or.inr (List.mem_cons_of_mem _ h)

structure CalendarDay where
  date : Nat
  fullDate : Nat
  isCurrentMonth : Bool
  isToday : Bool
  sessions : List Session
  totalMinutes : Nat
deriving Repr, DecidableEq

def gridStart (y m : Nat) : Nat :=
  let firstDayNum := toDayNumber y m 1
  let firstDayOfWeek := dayOfWeek firstDayNum
  firstDayNum - (if firstDayOfWeek = 0 then 6 else firstDayOfWeek - 1)

def gridEnd (y m : Nat) : Nat :=
  let lastDayNum := toDayNumber y m 1 + daysInMonth y m - 1
  let lastDayOfWeek := dayOfWeek lastDayNum
  lastDayNum + (if lastDayOfWeek = 0 then 0 else 7 - lastDayOfWeek)

def gridCell (y m : Nat) (sessions : List Session) (clock n : Nat) : CalendarDay :=
  let daySessions := sessions.filter (fun s => s.date == n)
  { date := dayOfMonthOfDay n
    fullDate := n
    isCurrentMonth := monthOfDay n == m
    isToday := n == dayOf clock
    sessions := daySessions
    totalMinutes := (daySessions.map (·.totalMinutes)).sum }

def calendarData (y m : Nat) (sessions : List Session) (clock : Nat) : List CalendarDay :=
  (List.range (gridEnd y m + 1 - gridStart y m)).map
    (fun i => gridCell y m sessions clock (gridStart y m + i))

/-! ## Theorems -/

/-- C1: `calculateProductivityMetrics` assigns `performanceRating` by the
ordered first-match cascade over `sessionProductivity` (round of
active/total·100, 0 when total = 0) and `dailyTargetAchievement` (round of
total/480·100); on the scenario session {totalMinutes 450, idleMinutes 50}
it yields activeMinutes 400, sessionProductivity 89,
dailyTargetAchievement 94, efficiencyScore 83 and rating Good. -/
theorem performanceRating_cascade :
    (∀ s : Session,
      (calculateProductivityMetrics s).sessionProductivity =
        (if s.totalMinutes > 0 then
          jsRoundDiv (((s.totalMinutes : Int) - s.idleMinutes) * 100) (s.totalMinutes : Int)
        else 0) ∧
      (calculateProductivityMetrics s).dailyTargetAchievement =
        jsRoundDiv ((s.totalMinutes : Int) * 100) 480 ∧
      (calculateProductivityMetrics s).performanceRating =
        (if (calculateProductivityMetrics s).sessionProductivity ≥ 90 ∧
            (calculateProductivityMetrics s).dailyTargetAchievement ≥ 80 then .excellent
         else if (calculateProductivityMetrics s).sessionProductivity ≥ 80 ∧
            (calculateProductivityMetrics s).dailyTargetAchievement ≥ 70 then .good
         else if (calculateProductivityMetrics s).sessionProductivity ≥ 70 ∧
            (calculateProductivityMetrics s).dailyTargetAchievement ≥ 60 then .average
         else if (calculateProductivityMetrics s).sessionProductivity ≥ 60 ∨
            (calculateProductivityMetrics s).dailyTargetAchievement ≥ 50 then .belowAverage
         else .poor)) ∧
    calculateProductivityMetrics scenarioSession =
      { activeMinutes := 400, sessionProductivity := 89, dailyTargetAchievement := 94
        efficiencyScore := 83, performanceRating := .good } := by
  refine ⟨fun s => ⟨rfl, rfl, rfl⟩, by decide⟩

/-- C2 counterexample: on `{totalMinutes: 60, idleMinutes: 90}` the code
does not clamp — `activeMinutes` is `-30`, not
`max (totalMinutes - idleMinutes) 0 = 0` as the claim states. -/
theorem activeMinutes_not_clamped :
    (calculateProductivityMetrics
      { userId := "u", date := 0, totalMinutes := 60, idleMinutes := 90,
        status := "submitted", approvalStatus := "submitted" }).activeMinutes = -30 ∧
    (-30 : Int) ≠ max ((60 : Int) - 90) 0 := by
  decide

/-- C2 amended: `calculateProductivityMetrics` performs no clamping of
`idleMinutes`: `activeMinutes = totalMinutes - idleMinutes` exactly, so it
is negative whenever `idleMinutes > totalMinutes`. -/
theorem activeMinutes_eq_sub (s : Session) :
    (calculateProductivityMetrics s).activeMinutes =
      (s.totalMinutes : Int) - (s.idleMinutes : Int) := rfl

/-- C3: `stats` sums `totalMinutes` and `idleMinutes` over the sessions and
computes `productivityRate` from the aggregate totals (0 when the aggregate
total is 0); on the scenario [480,0,300]/[60,0,300] it gives
totalMinutes 780, activeMinutes 420 and productivityRate 54, which differs
from the average of the per-session rates (29). -/
theorem stats_aggregates :
    (∀ sessions : List Session,
      (stats sessions).totalMinutes = (sessions.map (·.totalMinutes)).sum ∧
      (stats sessions).idleMinutes = (sessions.map (·.idleMinutes)).sum ∧
      (stats sessions).activeMinutes =
        ((stats sessions).totalMinutes : Int) - ((stats sessions).idleMinutes : Int) ∧
      (stats sessions).productivityRate =
        (if (stats sessions).totalMinutes > 0 then
          jsRoundDiv ((stats sessions).activeMinutes * 100) ((stats sessions).totalMinutes : Int)
        else 0)) ∧
    (stats scenarioWeek).totalMinutes = 780 ∧
    (stats scenarioWeek).activeMinutes = 420 ∧
    (stats scenarioWeek).productivityRate = 54 ∧
    specAverageOfSessionRates scenarioWeek = 29 ∧
    (stats scenarioWeek).productivityRate ≠ specAverageOfSessionRates scenarioWeek := by
  refine ⟨fun sessions => ⟨rfl, rfl, rfl, rfl⟩, by decide, by decide, by decide, by decide, by decide⟩

/-- C8 counterexample: the weekly `stats` counters do not match on the
`status` field alone — the session with status "processing" (unknown) and
approvalStatus "approved" is counted in the approved bucket, while the
claim says a session with unknown status is counted in none of the three
counters. -/
theorem unknown_status_still_counted :
    (stats [{ userId := "u", date := 0, totalMinutes := 10, idleMinutes := 0,
              status := "processing", approvalStatus := "approved" }]).approved = 1 ∧
    ("processing" ≠ "submitted" ∧ "processing" ≠ "approved" ∧ "processing" ≠ "disapproved") := by
  decide

/-- C8 amended: the analytics `overallMetrics` tallies match the `status`
field exactly and a session with an unknown status is excluded from all
three of its counters; but the weekly `stats` counters also match on
`approvalStatus`, so such a session can still be counted there. -/
theorem status_counters_amended (s : Session) (sessions : List Session)
    (h1 : s.status ≠ "submitted") (h2 : s.status ≠ "approved")
    (h3 : s.status ≠ "disapproved") (h4 : s.approvalStatus = "approved") :
    (overallMetricsCounts (s :: sessions)).pendingSessions =
      (overallMetricsCounts sessions).pendingSessions ∧
    (overallMetricsCounts (s :: sessions)).approvedSessions =
      (overallMetricsCounts sessions).approvedSessions ∧
    (overallMetricsCounts (s :: sessions)).rejectedSessions =
      (overallMetricsCounts sessions).rejectedSessions ∧
    (stats (s :: sessions)).approved = (stats sessions).approved + 1 := by
  refine ⟨?_, ?_, ?_, ?_⟩ <;>
    simp [overallMetricsCounts, stats, List.filter_cons, h1, h2, h3, h4]

/-- Witness for C8's amended theorem at a concrete session. -/
theorem status_counters_amended_witness :
    (overallMetricsCounts [{ userId := "u", date := 0, totalMinutes := 10, idleMinutes := 0,
                             status := "processing", approvalStatus := "approved" }]).approvedSessions =
      (overallMetricsCounts []).approvedSessions ∧
    (stats [{ userId := "u", date := 0, totalMinutes := 10, idleMinutes := 0,
              status := "processing", approvalStatus := "approved" }]).approved =
      (stats []).approved + 1 := by
  have h := status_counters_amended
    { userId := "u", date := 0, totalMinutes := 10, idleMinutes := 0
      status := "processing", approvalStatus := "approved" } []
    (by decide) (by decide) (by decide) (by decide)
  exact ⟨h.2.1, h.2.2.2⟩

/-- C10: each weekly `stats` counter matches a session when either its
`status` or its `approvalStatus` equals the corresponding value, so the
single session with status "submitted" and approvalStatus "approved" is
counted both as pending and as approved, and the three counters sum to 2
for a one-session list. -/
theorem stats_counters_double_count :
    (∀ sessions : List Session,
      (stats sessions).pending = (sessions.filter
        (fun s => s.status == "submitted" || s.approvalStatus == "submitted")).length ∧
      (stats sessions).approved = (sessions.filter
        (fun s => s.status == "approved" || s.approvalStatus == "approved")).length ∧
      (stats sessions).disapproved = (sessions.filter
        (fun s => s.status == "disapproved" || s.approvalStatus == "disapproved")).length) ∧
    (stats [{ userId := "u", date := 0, totalMinutes := 60, idleMinutes := 0,
              status := "submitted", approvalStatus := "approved" }]).pending = 1 ∧
    (stats [{ userId := "u", date := 0, totalMinutes := 60, idleMinutes := 0,
              status := "submitted", approvalStatus := "approved" }]).approved = 1 ∧
    (stats [{ userId := "u", date := 0, totalMinutes := 60, idleMinutes := 0,
              status := "submitted", approvalStatus := "approved" }]).disapproved = 0 ∧
    ([({ userId := "u", date := 0, totalMinutes := 60, idleMinutes := 0,
         status := "submitted", approvalStatus := "approved" } : Session)].length) < 1 + 1 + 0 := by
  refine ⟨fun sessions => ⟨rfl, rfl, rfl⟩, by decide, by decide, by decide, by decide⟩

theorem sumYears_succ_right (y0 n : Nat) :
    sumYears y0 (n + 1) = sumYears y0 n + daysInYear (y0 + n) := by
  induction n generalizing y0 with
  | zero => simp [sumYears]
  | succ k ih =>
    have h : y0 + 1 + k = y0 + (k + 1) := by omega
    rw [sumYears, ih (y0 + 1), h, sumYears]
    omega

theorem daysBeforeYearAux_eq (n : Nat) : daysBeforeYearAux n = sumYears 1970 n := by
  induction n with
  | zero => rfl
  | succ k ih => rw [daysBeforeYearAux, ih, sumYears_succ_right]

theorem daysInYear_ge (y : Nat) : 365 ≤ daysInYear y := by
  unfold daysInYear; split <;> omega

theorem daysInMonth_ge (y m : Nat) : 28 ≤ daysInMonth y m := by
  unfold daysInMonth; split <;> (try split) <;> omega

theorem daysInMonth_le (y m : Nat) : daysInMonth y m ≤ 31 := by
  unfold daysInMonth; split <;> (try split) <;> omega

theorem daysBeforeMonth_succ (y m : Nat) :
    daysBeforeMonth y (m + 1) = daysBeforeMonth y m + daysInMonth y m := by
  simp [daysBeforeMonth, List.range_succ]

theorem daysBeforeMonth_mono (y : Nat) {a b : Nat} (h : a ≤ b) :
    daysBeforeMonth y a ≤ daysBeforeMonth y b := by
  obtain ⟨k, rfl⟩ := Nat.le.dest h
  induction k with
  | zero => exact Nat.le_refl _
  | succ n ih =>
    have : a + (n + 1) = (a + n) + 1 := by omega
    rw [this, daysBeforeMonth_succ]
    omega

theorem daysBeforeMonth_twelve (y : Nat) : daysBeforeMonth y 12 = daysInYear y := by
  have hr : List.range 12 = [0, 1, 2, 3, 4, 5, 6, 7, 8, 9, 10, 11] := rfl
  rw [daysBeforeMonth, hr]
  simp only [List.map, List.sum_cons, List.sum_nil]
  show 31 + ((if isLeap y then 29 else 28) + (31 + (30 + (31 + (30 + (31 + (31 +
    (30 + (31 + (30 + (31 + 0))))))))))) = daysInYear y
  unfold daysInYear
  split <;> omega

theorem yearOfAux_spec (Δ : Nat) : ∀ (y0 r fuel : Nat), r < daysInYear (y0 + Δ) →
    sumYears y0 Δ + r < fuel →
    yearOfAux fuel y0 (sumYears y0 Δ + r) = (y0 + Δ, r) := by
  induction Δ with
  | zero =>
    intro y0 r fuel hr hf
    cases fuel with
    | zero => omega
    | succ f =>
      simp only [sumYears, Nat.zero_add, Nat.add_zero] at hr hf ⊢
      rw [yearOfAux, if_pos hr]
  | succ Δ ih =>
    intro y0 r fuel hr hf
    have h365 := daysInYear_ge y0
    have hsum : sumYears y0 (Δ + 1) = daysInYear y0 + sumYears (y0 + 1) Δ := rfl
    cases fuel with
    | zero => omega
    | succ f =>
      rw [yearOfAux, if_neg (by omega)]
      have heq : sumYears y0 (Δ + 1) + r - daysInYear y0 = sumYears (y0 + 1) Δ + r := by
        rw [hsum]; omega
      rw [heq]
      have hr' : r < daysInYear (y0 + 1 + Δ) := by
        have : y0 + 1 + Δ = y0 + (Δ + 1) := by omega
        rw [this]; exact hr
      have hf' : sumYears (y0 + 1) Δ + r < f := by
        rw [hsum] at hf; omega
      rw [ih (y0 + 1) r f hr' hf']
      have : y0 + 1 + Δ = y0 + (Δ + 1) := by omega
      rw [this]

theorem yearOf_spec (y r : Nat) (hy : 1970 ≤ y) (hr : r < daysInYear y) :
    yearOf (daysBeforeYear y + r) = (y, r) := by
  have h1 : daysBeforeYear y = sumYears 1970 (y - 1970) := by
    rw [daysBeforeYear, daysBeforeYearAux_eq]
  have h1970 : 1970 + (y - 1970) = y := by omega
  have h2 := yearOfAux_spec (y - 1970) 1970 r (daysBeforeYear y + r + 1)
    (by rw [h1970]; exact hr) (by rw [← h1]; omega)
  rw [yearOf, h1]
  rw [h1] at h2
  rw [h2, h1970]

set_option maxRecDepth 100000 in
theorem monthOf_spec (y m d : Nat) (hm : m < 12) (hd : d < daysInMonth y m) :
    monthOf y (daysBeforeMonth y m + d) = m := by
  rw [monthOf]
  have hcong : ∀ k ∈ List.range 12,
      (decide (daysBeforeMonth y (k + 1) ≤ daysBeforeMonth y m + d)) = (decide (k < m)) := by
    intro k _
    simp only [decide_eq_decide]
    constructor
    · intro h
      by_contra hkm
      push_neg at hkm
      have h1 : daysBeforeMonth y (m + 1) ≤ daysBeforeMonth y (k + 1) :=
        daysBeforeMonth_mono y (by omega)
      have h2 := daysBeforeMonth_succ y m
      omega
    · intro h
      have h1 : daysBeforeMonth y (k + 1) ≤ daysBeforeMonth y m :=
        daysBeforeMonth_mono y (by omega)
      omega
  rw [List.filter_congr hcong]
  have hlen : ∀ m' < 13, ((List.range 12).filter (fun k => decide (k < m'))).length = m' := by
    decide
  exact hlen m (by omega)

theorem civil_roundtrip (y m d : Nat) (hy : 1970 ≤ y) (hm : m < 12)
    (hd1 : 1 ≤ d) (hd2 : d ≤ daysInMonth y m) :
    yearOf (toDayNumber y m d) = (y, daysBeforeMonth y m + (d - 1)) ∧
    monthOfDay (toDayNumber y m d) = m ∧
    dayOfMonthOfDay (toDayNumber y m d) = d := by
  have hrlt : daysBeforeMonth y m + (d - 1) < daysInYear y := by
    have h1 : daysBeforeMonth y (m + 1) ≤ daysBeforeMonth y 12 :=
      daysBeforeMonth_mono y (by omega)
    have h2 := daysBeforeMonth_succ y m
    have h3 := daysBeforeMonth_twelve y
    omega
  have hyr : yearOf (toDayNumber y m d) = (y, daysBeforeMonth y m + (d - 1)) := by
    rw [toDayNumber, Nat.add_assoc]
    exact yearOf_spec y _ hy hrlt
  have hmo : monthOfDay (toDayNumber y m d) = m := by
    rw [monthOfDay, hyr]
    exact monthOf_spec y m (d - 1) hm (by omega)
  refine ⟨hyr, hmo, ?_⟩
  rw [dayOfMonthOfDay, hyr, hmo]
  simp only
  omega

theorem daysBeforeYear_succ (y : Nat) (hy : 1970 ≤ y) :
    daysBeforeYear (y + 1) = daysBeforeYear y + daysInYear y := by
  have h1 : y + 1 - 1970 = (y - 1970) + 1 := by omega
  have h2 : 1970 + (y - 1970) = y := by omega
  rw [daysBeforeYear, h1, daysBeforeYearAux, h2, daysBeforeYear]

theorem daysBeforeYear_ge (y : Nat) (hy : 1971 ≤ y) : 365 ≤ daysBeforeYear y := by
  have heq : y - 1 + 1 = y := by omega
  have h := daysBeforeYear_succ (y - 1) (by omega)
  simp only [heq] at h
  have := daysInYear_ge (y - 1)
  omega

theorem monthOfDay_prev (y m j : Nat) (hy : 1971 ≤ y) (hm : m < 12)
    (hj1 : 1 ≤ j) (hj6 : j ≤ 6) :
    monthOfDay (toDayNumber y m 1 - j) ≠ m ∧
    toDayNumber y m 1 - j + j = toDayNumber y m 1 := by
  have hge := daysBeforeYear_ge y hy
  by_cases hm0 : m = 0
  · subst hm0
    have hdim := daysInMonth_ge (y - 1) 11
    have hkey : toDayNumber y 0 1 - j = toDayNumber (y - 1) 11 (daysInMonth (y - 1) 11 + 1 - j) := by
      have h1 : toDayNumber y 0 1 = daysBeforeYear y := by
        simp [toDayNumber, daysBeforeMonth]
      have h2 : daysBeforeYear y = daysBeforeYear (y - 1) + daysInYear (y - 1) := by
        have heq : y - 1 + 1 = y := by omega
        have h := daysBeforeYear_succ (y - 1) (by omega)
        simp only [heq] at h
        exact h
      have h3 : daysBeforeMonth (y - 1) 11 + daysInMonth (y - 1) 11 = daysInYear (y - 1) := by
        have h4 := daysBeforeMonth_succ (y - 1) 11
        norm_num at h4
        have h5 := daysBeforeMonth_twelve (y - 1)
        omega
      have h0 : daysBeforeMonth y 0 = 0 := rfl
      rw [toDayNumber, toDayNumber, h0, h2]
      omega
    have hrt := civil_roundtrip (y - 1) 11 (daysInMonth (y - 1) 11 + 1 - j)
      (by omega) (by omega) (by omega) (by omega)
    constructor
    · rw [hkey, hrt.2.1]; omega
    · have h1 : toDayNumber y 0 1 = daysBeforeYear y := by
        simp [toDayNumber, daysBeforeMonth]
      rw [h1]; omega
  · have hdim := daysInMonth_ge y (m - 1)
    have hmono : daysBeforeMonth y (m - 1) ≤ daysBeforeMonth y m := daysBeforeMonth_mono y (by omega)
    have hsucc : daysBeforeMonth y m = daysBeforeMonth y (m - 1) + daysInMonth y (m - 1) := by
      have heq : m - 1 + 1 = m := by omega
      have h := daysBeforeMonth_succ y (m - 1)
      simp only [heq] at h
      exact h
    have hkey : toDayNumber y m 1 - j = toDayNumber y (m - 1) (daysInMonth y (m - 1) + 1 - j) := by
      rw [toDayNumber, toDayNumber, hsucc]
      omega
    have hrt := civil_roundtrip y (m - 1) (daysInMonth y (m - 1) + 1 - j)
      (by omega) (by omega) (by omega) (by omega)
    constructor
    · rw [hkey, hrt.2.1]; omega
    · rw [toDayNumber, hsucc]; omega

theorem monthOfDay_next (y m j : Nat) (hy : 1970 ≤ y) (hm : m < 12)
    (hj1 : 1 ≤ j) (hj6 : j ≤ 6) :
    monthOfDay (toDayNumber y m (daysInMonth y m) + j) ≠ m := by
  by_cases hm11 : m = 11
  · subst hm11
    have hkey : toDayNumber y 11 (daysInMonth y 11) + j = toDayNumber (y + 1) 0 j := by
      have h1 := daysBeforeYear_succ y hy
      have h2 := daysBeforeMonth_succ y 11
      norm_num at h2
      have h3 := daysBeforeMonth_twelve y
      have hdim := daysInMonth_ge y 11
      have h0 : daysBeforeMonth (y + 1) 0 = 0 := rfl
      rw [toDayNumber, toDayNumber, h0]
      omega
    have hrt := civil_roundtrip (y + 1) 0 j (by omega) (by omega) (by omega)
      (by have := daysInMonth_ge (y + 1) 0; omega)
    rw [hkey, hrt.2.1]; omega
  · have hkey : toDayNumber y m (daysInMonth y m) + j = toDayNumber y (m + 1) j := by
      have h2 := daysBeforeMonth_succ y m
      have hdim := daysInMonth_ge y m
      rw [toDayNumber, toDayNumber]
      omega
    have hrt := civil_roundtrip y (m + 1) j (by omega) (by omega) (by omega)
      (by have := daysInMonth_ge y (m + 1); omega)
    rw [hkey, hrt.2.1]; omega

/-- C4: `getWeekDateRange` returns as `start` the Sunday on or before the
anchor and as `end` the Saturday `start + 6`; both are date-only values
(`YYYY-MM-DD` strings). On the Wednesday anchor 2024-01-10 it returns
2024-01-07 and 2024-01-13. -/
theorem getWeekDateRange_correct (t : Nat)
    (h : dayOfWeek (dayOf t) * 1440 ≤ t) :
    dayOfWeek (getWeekDateRange t).1 = 0 ∧
    (getWeekDateRange t).1 ≤ dayOf t ∧
    dayOf t < (getWeekDateRange t).1 + 7 ∧
    (getWeekDateRange t).2 = (getWeekDateRange t).1 + 6 ∧
    dayOfWeek (getWeekDateRange t).2 = 6 ∧
    getWeekDateRange (toDayNumber 2024 0 10 * 1440) =
      (toDayNumber 2024 0 7, toDayNumber 2024 0 13) := by
  simp only [getWeekDateRange, dayOf, dayOfWeek] at *
  refine ⟨?_, ?_, ?_, ?_, ?_, by decide⟩ <;> omega

/-- Witness for C4 at the 2024-01-10 (noon) anchor. -/
theorem getWeekDateRange_correct_witness :
    dayOfWeek (getWeekDateRange (toDayNumber 2024 0 10 * 1440 + 720)).1 = 0 ∧
    (getWeekDateRange (toDayNumber 2024 0 10 * 1440 + 720)).1 ≤
      dayOf (toDayNumber 2024 0 10 * 1440 + 720) :=
  ⟨(getWeekDateRange_correct (toDayNumber 2024 0 10 * 1440 + 720) (by decide)).1,
   (getWeekDateRange_correct (toDayNumber 2024 0 10 * 1440 + 720) (by decide)).2.1⟩

/-- C5 counterexample: the anchor 2024-01-03T23:00 lies in the week of
2024-01-03 and the clock 2024-01-10T08:00 lies in the very next week, yet
`canNavigateNext` is `false` — the current week is not reachable — because
the week starts are compared as instants with the time of day preserved
(23:00 > 08:00), while the claim says any anchor in the week of 2024-01-03
can advance. -/
theorem canNavigateNext_counterexample :
    canNavigateNext (toDayNumber 2024 0 3 * 1440 + 23 * 60)
      (toDayNumber 2024 0 10 * 1440 + 8 * 60) = false ∧
    dayOf (weekStartInstant (toDayNumber 2024 0 3 * 1440 + 23 * 60)) =
      dayOf (weekStartInstant (toDayNumber 2024 0 3 * 1440)) ∧
    dayOf (weekStartInstant (toDayNumber 2024 0 10 * 1440 + 8 * 60)) =
      dayOf (weekStartInstant (toDayNumber 2024 0 3 * 1440 + 23 * 60)) + 7 := by
  refine ⟨by decide, by decide, by decide⟩

/-- C5 amended: `canNavigateNext` compares week starts as instants with the
anchor's time of day preserved. It is `true` iff the Sunday of the anchor's
week is more than one week before the Sunday of the clock's week, or
exactly one week before it and the anchor's time of day is not later than
the clock's. In particular no anchor in the clock's own week (or later) can
advance, and an anchor in the immediately preceding week can advance only
when its time of day is ≤ the clock's. -/
theorem canNavigateNext_characterization (anchor clock : Nat)
    (ha : dayOfWeek (dayOf anchor) * 1440 ≤ anchor)
    (hc : dayOfWeek (dayOf clock) * 1440 ≤ clock) :
    canNavigateNext anchor clock = true ↔
      (dayOf (weekStartInstant anchor) + 7 < dayOf (weekStartInstant clock) ∨
       (dayOf (weekStartInstant anchor) + 7 = dayOf (weekStartInstant clock) ∧
        anchor % 1440 ≤ clock % 1440)) := by
  simp only [canNavigateNext, weekStartInstant, dayOf, dayOfWeek, decide_eq_true_eq] at *
  omega

/-- Witness for C5's amended theorem: from midnight 2024-01-03 the next
week (starting 2024-01-07) is reachable when the clock reads midnight
2024-01-10. -/
theorem canNavigateNext_characterization_witness :
    canNavigateNext (toDayNumber 2024 0 3 * 1440) (toDayNumber 2024 0 10 * 1440) = true :=
  (canNavigateNext_characterization (toDayNumber 2024 0 3 * 1440)
    (toDayNumber 2024 0 10 * 1440) (by decide) (by decide)).mpr (by decide)

/-- C9 counterexample: the time-relative operations do not take the current
instant from the caller — they read `new Date()` internally (modelled here
as the extra `clock` argument). With identical caller-visible inputs, two
executions at different instants disagree: `isToday` on 2024-01-10 is true
when run that day and false when run the next day, and `canNavigateNext`
on the same anchor flips from false to true a week later. -/
theorem now_read_internally :
    isTodayWeekly (toDayNumber 2024 0 10 * 1440) (toDayNumber 2024 0 10 * 1440 + 600) = true ∧
    isTodayWeekly (toDayNumber 2024 0 10 * 1440) (toDayNumber 2024 0 11 * 1440 + 600) = false ∧
    canNavigateNext (toDayNumber 2024 0 3 * 1440) (toDayNumber 2024 0 3 * 1440) = false ∧
    canNavigateNext (toDayNumber 2024 0 3 * 1440) (toDayNumber 2024 0 17 * 1440) = true := by
  refine ⟨by decide, by decide, by decide, by decide⟩

/-- C9 amended: the operations are deterministic only once the internal
clock read is fixed: given the modelled clock value their outputs are
functions of (inputs, clock), but the output genuinely varies with the
execution instant — `isToday d` evaluates to true exactly while the clock
is within day `d`. -/
theorem isToday_clock_dependence (d c1 c2 : Nat)
    (h1 : dayOf c1 = dayOf d) (h2 : dayOf c2 ≠ dayOf d) :
    isTodayWeekly d c1 = true ∧ isTodayWeekly d c2 = false := by
  constructor
  · simpa [isTodayWeekly] using h1.symm
  · simpa [isTodayWeekly] using fun h => h2 h.symm

/-- Witness for C9's amended theorem. -/
theorem isToday_clock_dependence_witness :
    isTodayWeekly 2880 3000 = true ∧ isTodayWeekly 2880 5000 = false :=
  isToday_clock_dependence 2880 3000 5000 (by decide) (by decide)

/-- A `mapGet` hit is a member of the map. -/
theorem mem_of_mapGet {m : List (String × PerformerStat)} {k : String} {v : PerformerStat}
    (h : mapGet m k = some v) : (k, v) ∈ m := by
  unfold mapGet at h
  rcases hf : m.find? (fun p => p.1 == k) with _ | kv
  · rw [hf] at h; simp at h
  · rw [hf] at h
    simp only [Option.map_some'] at h
    have hk := List.find?_some hf
    simp only [beq_iff_eq] at hk
    have hmem := List.mem_of_find?_eq_some hf
    have hkv : kv = (k, v) := by
      cases kv
      simp only [Option.some.injEq] at h
      simp_all
    rwa [hkv] at hmem

/-- Every entry produced by folding `topPerformersStep` carries a user from
the directory whose id is attributed by at least one of the processed
sessions. -/
theorem topPerformers_fold_inv (allSessions : List Session) (users : List UserRec)
    (pending : List Session) (m : List (String × PerformerStat))
    (hm : ∀ kv ∈ m, kv.2.user ∈ users ∧ ∃ s ∈ allSessions, s.userId = kv.2.user.id)
    (hp : ∀ s ∈ pending, s ∈ allSessions) :
    ∀ kv ∈ pending.foldl (topPerformersStep allSessions users) m,
      kv.2.user ∈ users ∧ ∃ s ∈ allSessions, s.userId = kv.2.user.id := by
  induction pending generalizing m with
  | nil => simpa using hm
  | cons s rest ih =>
    refine ih (topPerformersStep allSessions users m s) ?_
      (fun x hx => hp x (List.mem_cons_of_mem _ hx))
    intro kv hkv
    rw [topPerformersStep] at hkv
    cases hfind : users.find? (fun u => u.id == s.userId) with
    | none => exact hm kv (by rwa [hfind] at hkv)
    | some userData =>
      rw [hfind] at hkv
      rcases mem_mapSet hkv with h | h
      · subst h
        cases hget : mapGet m s.userId with
        | none =>
          simp only [hget, Option.getD_none]
          refine ⟨List.mem_of_find?_eq_some hfind, s, hp s (List.mem_cons_self _ _), ?_⟩
          have huid := List.find?_some hfind
          simp only [beq_iff_eq] at huid
          exact huid.symm
        | some prev =>
          simp only [hget, Option.getD_some]
          exact hm _ (mem_of_mapGet hget)
      · exact hm kv h

/-- C7 counterexample: with two users of equal productivity rate (50%),
user "b" with 1 total hour appears before user "a" with 2 total hours,
because the sort uses only the rate and keeps insertion order on ties —
the claimed tie-breaks (total hours descending, then user id ascending)
would both put "a" first. -/
theorem topPerformers_no_tiebreak :
    ((topPerformers
        [ { userId := "b", date := 0, totalMinutes := 60, idleMinutes := 30,
            status := "approved", approvalStatus := "approved" },
          { userId := "a", date := 0, totalMinutes := 120, idleMinutes := 60,
            status := "approved", approvalStatus := "approved" } ]
        [⟨"a"⟩, ⟨"b"⟩]).map (fun p => p.user.id) = ["b", "a"]) ∧
    ((topPerformers
        [ { userId := "b", date := 0, totalMinutes := 60, idleMinutes := 30,
            status := "approved", approvalStatus := "approved" },
          { userId := "a", date := 0, totalMinutes := 120, idleMinutes := 60,
            status := "approved", approvalStatus := "approved" } ]
        [⟨"a"⟩, ⟨"b"⟩]).map (fun p => (p.productivityRate, p.totalHours)) =
      [(50, 1), (50, 2)]) := by
  constructor <;>
  · simp [topPerformers, topPerformersStep, mapGet, mapSet, jsRoundQ, List.foldl,
      List.insertionSort, List.orderedInsert, List.find?, List.filter]
    norm_num

/-- C7 amended: `topPerformers` groups sessions by userId (dropping
sessions whose user is not in the directory), computes each user's
aggregate rate, sorts descending by productivityRate only — ties keep the
map's insertion order (order of first session occurrence), with no
total-hours or user-id tie-break — and truncates to the hardcoded 5 (there
is no limit parameter). A user with zero attributed sessions never
appears. -/
theorem topPerformers_spec (sessions : List Session) (users : List UserRec) :
    (∀ p ∈ topPerformers sessions users,
      p.user ∈ users ∧ ∃ s ∈ sessions, s.userId = p.user.id) ∧
    List.Sorted (fun a b : PerformerStat => b.productivityRate ≤ a.productivityRate)
      (topPerformers sessions users) ∧
    (topPerformers sessions users).length ≤ 5 := by
  refine ⟨?_, ?_, List.length_take_le 5 _⟩
  · intro p hp
    have hp' : p ∈ ((sessions.foldl (topPerformersStep sessions users) []).map Prod.snd) := by
      have h1 : p ∈ (((sessions.foldl (topPerformersStep sessions users) []).map
          Prod.snd).insertionSort (fun a b => b.productivityRate ≤ a.productivityRate)) :=
        List.mem_of_mem_take hp
      exact (List.perm_insertionSort _ _).mem_iff.mp h1
    rcases List.mem_map.mp hp' with ⟨kv, hkv, hsnd⟩
    have := topPerformers_fold_inv sessions users sessions []
      (by simp) (fun s hs => hs) kv hkv
    exact hsnd ▸ this
  · have hs : List.Sorted (fun a b : PerformerStat => b.productivityRate ≤ a.productivityRate)
        (((sessions.foldl (topPerformersStep sessions users) []).map
          Prod.snd).insertionSort (fun a b => b.productivityRate ≤ a.productivityRate)) := by
      haveI : IsTotal PerformerStat (fun a b => b.productivityRate ≤ a.productivityRate) :=
        ⟨fun a b => le_total b.productivityRate a.productivityRate⟩
      haveI : IsTrans PerformerStat (fun a b => b.productivityRate ≤ a.productivityRate) :=
        ⟨fun _ _ _ h1 h2 => le_trans h2 h1⟩
      exact List.sorted_insertionSort _ _
    exact hs.take

theorem count_range_eq (v len : Nat) :
    (List.range len).count v = if v < len then 1 else 0 := by
  induction len with
  | zero => simp
  | succ n ih =>
    rw [List.range_succ, List.count_append, ih]
    by_cases h : v = n
    · subst h
      rw [if_neg (by omega), if_pos (by omega)]
      simp
    · have h1 : List.count v [n] = 0 := by simp [List.count_singleton', h]
      rw [h1]
      split_ifs <;> omega

theorem toDayNumber_shift (y m d : Nat) (hd : 1 ≤ d) :
    toDayNumber y m d = toDayNumber y m 1 + (d - 1) := by
  rw [toDayNumber, toDayNumber]
  omega

theorem gridStart_bounds (y m : Nat) :
    gridStart y m ≤ toDayNumber y m 1 ∧ toDayNumber y m 1 - gridStart y m ≤ 6 := by
  rw [gridStart]
  have : dayOfWeek (toDayNumber y m 1) < 7 := by rw [dayOfWeek]; omega
  split <;> omega

theorem gridEnd_bounds (y m : Nat) :
    toDayNumber y m 1 + daysInMonth y m - 1 ≤ gridEnd y m ∧
    gridEnd y m ≤ toDayNumber y m 1 + daysInMonth y m - 1 + 6 := by
  rw [gridEnd]
  have : dayOfWeek (toDayNumber y m 1 + daysInMonth y m - 1) < 7 := by rw [dayOfWeek]; omega
  split <;> omega

set_option maxHeartbeats 1000000 in
theorem calendarData_correct (y m : Nat) (sessions : List Session) (clock : Nat)
    (hy : 1971 ≤ y) (hm : m < 12) :
    (calendarData y m sessions clock).length % 7 = 0 ∧
    (∀ c ∈ calendarData y m sessions clock,
      (c.isCurrentMonth = true ↔
        toDayNumber y m 1 ≤ c.fullDate ∧ c.fullDate ≤ toDayNumber y m (daysInMonth y m)) ∧
      c.totalMinutes =
        ((sessions.filter (fun s => s.date == c.fullDate)).map (·.totalMinutes)).sum) ∧
    (∀ d, 1 ≤ d → d ≤ daysInMonth y m →
      ((calendarData y m sessions clock).map (·.fullDate)).count (toDayNumber y m d) = 1) := by
  have hdim28 := daysInMonth_ge y m
  have hdim31 := daysInMonth_le y m
  have hfge : 365 ≤ toDayNumber y m 1 := by
    have h1 := daysBeforeYear_ge y hy
    rw [toDayNumber]; omega
  have hsb := gridStart_bounds y m
  have heb := gridEnd_bounds y m
  have hlast : toDayNumber y m (daysInMonth y m) = toDayNumber y m 1 + (daysInMonth y m - 1) :=
    toDayNumber_shift y m (daysInMonth y m) (by omega)
  refine ⟨?_, ?_, ?_⟩
  · -- length is a multiple of 7
    rw [calendarData, List.length_map, List.length_range]
    rw [gridStart, gridEnd]
    have h1 : dayOfWeek (toDayNumber y m 1) = (toDayNumber y m 1 + 4) % 7 := rfl
    have h2 : dayOfWeek (toDayNumber y m 1 + daysInMonth y m - 1) =
        (toDayNumber y m 1 + daysInMonth y m - 1 + 4) % 7 := rfl
    rw [h1, h2]
    split <;> split <;> omega
  · -- membership facts
    intro c hc
    rw [calendarData] at hc
    obtain ⟨i, hi, rfl⟩ := List.mem_map.mp hc
    rw [List.mem_range] at hi
    refine ⟨?_, rfl⟩
    show (monthOfDay (gridStart y m + i) == m) = true ↔ _
    rw [beq_iff_eq]
    show _ ↔ toDayNumber y m 1 ≤ gridStart y m + i ∧ gridStart y m + i ≤ _
    rw [hlast]
    by_cases hlt : gridStart y m + i < toDayNumber y m 1
    · -- filler day from the previous month
      have hprev := monthOfDay_prev y m (toDayNumber y m 1 - (gridStart y m + i)) hy hm
        (by omega) (by omega)
      have hn : toDayNumber y m 1 - (toDayNumber y m 1 - (gridStart y m + i)) =
          gridStart y m + i := by omega
      rw [hn] at hprev
      constructor
      · intro h; exact absurd h hprev.1
      · intro h; omega
    · by_cases hgt : gridStart y m + i ≤ toDayNumber y m 1 + (daysInMonth y m - 1)
      · -- day of the anchor month
        have hrt := civil_roundtrip y m (gridStart y m + i - toDayNumber y m 1 + 1)
          (by omega) hm (by omega) (by omega)
        have hn : toDayNumber y m (gridStart y m + i - toDayNumber y m 1 + 1) =
            gridStart y m + i := by
          rw [toDayNumber_shift y m _ (by omega)]
          omega
        rw [hn] at hrt
        constructor
        · intro _; omega
        · intro _; exact hrt.2.1
      · -- filler day from the next month
        have hj1 : 1 ≤ gridStart y m + i - (toDayNumber y m 1 + daysInMonth y m - 1) := by omega
        have hj6 : gridStart y m + i - (toDayNumber y m 1 + daysInMonth y m - 1) ≤ 6 := by omega
        have hnext := monthOfDay_next y m
          (gridStart y m + i - (toDayNumber y m 1 + daysInMonth y m - 1)) (by omega) hm hj1 hj6
        have hn : toDayNumber y m (daysInMonth y m) +
            (gridStart y m + i - (toDayNumber y m 1 + daysInMonth y m - 1)) =
            gridStart y m + i := by
          rw [hlast]; omega
        rw [hn] at hnext
        constructor
        · intro h; exact absurd h hnext
        · intro h; omega
  · -- each day of the anchor month occurs exactly once
    intro d hd1 hd2
    have hmap : (calendarData y m sessions clock).map (fun c => c.fullDate) =
        (List.range (gridEnd y m + 1 - gridStart y m)).map (fun i => gridStart y m + i) := by
      rw [calendarData, List.map_map]
      rfl
    rw [hmap]
    have hv : toDayNumber y m d = gridStart y m + (toDayNumber y m d - gridStart y m) := by
      rw [toDayNumber_shift y m d hd1]
      omega
    have ht := toDayNumber_shift y m d hd1
    rw [hv, List.count_map_of_injective _ _ (fun a b h => by omega),
      count_range_eq, if_pos (by omega)]

/-- Witness for C6 on February 2024 with no sessions: the grid length is a
multiple of 7 and 2024-02-14 occurs exactly once. -/
theorem calendarData_correct_witness :
    (calendarData 2024 1 [] 0).length % 7 = 0 ∧
    ((calendarData 2024 1 [] 0).map (·.fullDate)).count (toDayNumber 2024 1 14) = 1 :=
  ⟨(calendarData_correct 2024 1 [] 0 (by decide) (by decide)).1,
   (calendarData_correct 2024 1 [] 0 (by decide) (by decide)).2.2 14 (by decide) (by decide)⟩
